import Mathlib

/-!
# Verification of the `react-compare-slider` position synchronization engine

Shallow embedding of `src/ReactCompareSlider.tsx` over the rationals.
The engine converts pointer/touch/resize input into a normalized position
percentage, projects it to a clip boundary and a handle translation offset,
and suppresses redundant updates at the extremities.

The core is `updateInternalPosition` (lines 88–186 of the source), modelled
as a pure function from a geometry snapshot, the engine state and the call
properties to a new state together with an optional output record (the
output is `none` exactly when the pass was a no-op: zero geometry or the
extremity-suppression early return).
-/

namespace ReactCompareSlider

/-- Snapshot of the container geometry: `getBoundingClientRect` fields
(`top`, `left`, `width`, `height`), the layout-reported unscaled sizes
(`offsetWidth`, `offsetHeight`) and the page scroll offsets
(`window.pageXOffset` / `window.pageYOffset`). Read fresh on every pass. -/
structure Geometry where
  top : ℚ
  left : ℚ
  width : ℚ
  height : ℚ
  offsetWidth : ℚ
  offsetHeight : ℚ
  pageXOffset : ℚ
  pageYOffset : ℚ
deriving DecidableEq, Repr

/-- Arguments of a positioning pass (`UpdateInternalPositionProps`):
raw coordinates, whether they are page-space offsets, the orientation and
the bounds padding. -/
structure UpdateProps where
  x : ℚ
  y : ℚ
  isOffset : Bool
  portrait : Bool
  boundsPadding : ℚ
deriving DecidableEq, Repr

/-- Mutable engine state: `internalPositionPc` (the NormalizedPosition ref)
and `didSyncBounds` (the SyncedFlag state). -/
structure EngineState where
  internalPositionPc : ℚ
  didSyncBounds : Bool
deriving DecidableEq, Repr

/-- Engine state at mount: `internalPositionPc` starts at the `position`
prop (default `50`) and `didSyncBounds` starts `false`. -/
def initialState (position : ℚ) : EngineState :=
  { internalPositionPc := position, didSyncBounds := false }

/-- Outputs written by a non-suppressed pass: the pixel written into the
clip rectangle, the pixel written into the handle `translate3d`, and the
percentage passed to `onPositionChange`. -/
structure Outputs where
  clipPx : ℚ
  offsetPx : ℚ
  notifiedPc : ℚ
deriving DecidableEq, Repr

/-- `positionPx` (source lines 112–127): the raw coordinate on the active
axis, translated into container-local space when `isOffset`, clamped to
`[0, extent]` where `extent` is `height` (portrait) or `width` (landscape). -/
def positionPx (g : Geometry) (p : UpdateProps) : ℚ :=
  min
    (max
      (if p.portrait then
        (if p.isOffset then p.y - g.top - g.pageYOffset else p.y)
      else
        (if p.isOffset then p.x - g.left - g.pageXOffset else p.x))
      0)
    (if p.portrait then g.height else g.width)

/-- `zoomScale` (source lines 130–132): true size divided by the
layout-reported size on the active axis, the layout size defaulting to `1`
when it is `0` (the `|| 1` guard). -/
def zoomScale (g : Geometry) (p : UpdateProps) : ℚ :=
  if p.portrait then g.height / (if g.offsetHeight = 0 then 1 else g.offsetHeight)
  else g.width / (if g.offsetWidth = 0 then 1 else g.offsetWidth)

/-- `adjustedPosition` (source line 134): the clamped pixel corrected for
CSS scaling. -/
def adjustedPosition (g : Geometry) (p : UpdateProps) : ℚ :=
  positionPx g p / zoomScale g p

/-- `adjustedWidth` (source line 135). -/
def adjustedWidth (g : Geometry) (p : UpdateProps) : ℚ :=
  g.width / zoomScale g p

/-- `adjustedHeight` (source line 136). -/
def adjustedHeight (g : Geometry) (p : UpdateProps) : ℚ :=
  g.height / zoomScale g p

/-- The scale-corrected extent on the active axis:
`_portrait ? adjustedHeight : adjustedWidth`. -/
def adjustedExtent (g : Geometry) (p : UpdateProps) : ℚ :=
  if p.portrait then adjustedHeight g p else adjustedWidth g p

/-- `nextInternalPositionPc` (source lines 143–144): the percentage over
the full, unpadded scale-corrected extent. -/
def nextInternalPositionPc (g : Geometry) (p : UpdateProps) : ℚ :=
  adjustedPosition g p / adjustedExtent g p * 100

/-- `clampedPx` (source lines 168–173): the pixel position clamped to the
extremities with bounds padding applied. -/
def clampedPx (g : Geometry) (p : UpdateProps) : ℚ :=
  min (max (adjustedPosition g p) (0 + p.boundsPadding))
    (adjustedExtent g p - p.boundsPadding)

/-- `updateInternalPosition` (source lines 88–186). Returns the state after
the call together with `some` outputs when the pass ran to completion, or
`none` when it returned early (zero-size container, or the
extremity-suppression rule at lines 158–160). -/
def updateInternalPosition (g : Geometry) (s : EngineState) (p : UpdateProps) :
    EngineState × Option Outputs :=
  -- Early out if width or height are zero.
  if g.width = 0 ∨ g.height = 0 then (s, none)
  -- Early out if pixel and percentage positions are already at the min/max.
  else if s.didSyncBounds = true ∧
      (nextInternalPositionPc g p = s.internalPositionPc ∧
        (s.internalPositionPc = 0 ∨ s.internalPositionPc = 100)) ∧
      (adjustedPosition g p = 0 ∨ adjustedPosition g p = adjustedExtent g p) then
    (s, none)
  else
    ({ internalPositionPc := nextInternalPositionPc g p, didSyncBounds := true },
      some
        { clipPx := clampedPx g p
          offsetPx := clampedPx g p
          notifiedPc := nextInternalPositionPc g p })

/-- `handleResize` (source lines 245–260): recompute coordinates from the
stored percentage under the resize-observer sizes (`width`, `height`) and
the fresh bounding rect (`g`), then run one positioning pass. -/
def handleResize (g : Geometry) (s : EngineState) (portrait : Bool)
    (boundsPadding : ℚ) (width height : ℚ) : EngineState × Option Outputs :=
  updateInternalPosition g s
    { x := ((width / 100) * s.internalPositionPc * g.width) / width
      y := ((height / 100) * s.internalPositionPc * g.height) / height
      isOffset := false
      portrait := portrait
      boundsPadding := boundsPadding }

/-- The true (bounding-rect) extent on the active axis. -/
def extent (g : Geometry) (p : UpdateProps) : ℚ :=
  if p.portrait then g.height else g.width

lemma zoomScale_ne_zero (g : Geometry) (p : UpdateProps) (h : extent g p ≠ 0) :
    zoomScale g p ≠ 0 := by
  unfold extent at h
  unfold zoomScale
  cases hp : p.portrait
  · simp only [hp, if_false] at h ⊢
    refine div_ne_zero h ?_
    split_ifs with h0
    · exact one_ne_zero
    · exact h0
  · simp only [hp, if_true] at h ⊢
    refine div_ne_zero h ?_
    split_ifs with h0
    · exact one_ne_zero
    · exact h0

lemma adjustedExtent_eq (g : Geometry) (p : UpdateProps) :
    adjustedExtent g p = extent g p / zoomScale g p := by
  unfold adjustedExtent adjustedHeight adjustedWidth extent
  cases p.portrait <;> simp

/-- Zoom-scale cancellation: the percentage is the clamped raw pixel over the
true extent, independently of the layout-reported sizes. -/
lemma nextInternalPositionPc_eq (g : Geometry) (p : UpdateProps)
    (hz : zoomScale g p ≠ 0) :
    nextInternalPositionPc g p = positionPx g p / extent g p * 100 := by
  unfold nextInternalPositionPc adjustedPosition
  rw [adjustedExtent_eq, div_div_div_comm, div_self hz, div_one]

lemma positionPx_nonneg (g : Geometry) (p : UpdateProps) (h : 0 ≤ extent g p) :
    0 ≤ positionPx g p := by
  unfold positionPx
  unfold extent at h
  exact le_min (le_max_right _ _) h

lemma positionPx_le_extent (g : Geometry) (p : UpdateProps) :
    positionPx g p ≤ extent g p := by
  unfold positionPx extent
  exact min_le_right _ _

lemma nextInternalPositionPc_mem (g : Geometry) (p : UpdateProps)
    (h : 0 < extent g p) :
    0 ≤ nextInternalPositionPc g p ∧ nextInternalPositionPc g p ≤ 100 := by
  rw [nextInternalPositionPc_eq g p (zoomScale_ne_zero g p (ne_of_gt h))]
  constructor
  · exact mul_nonneg (div_nonneg (positionPx_nonneg g p h.le) h.le) (by norm_num)
  · have h1 : positionPx g p / extent g p ≤ 1 :=
      (div_le_one h).mpr (positionPx_le_extent g p)
    calc positionPx g p / extent g p * 100 ≤ 1 * 100 := by
          exact mul_le_mul_of_nonneg_right h1 (by norm_num)
      _ = 100 := one_mul 100

/-- With non-zero geometry, the stored percentage after a pass always equals
the newly computed percentage (in the suppressed branch the two were already
equal). -/
lemma updateInternalPosition_fst_pc (g : Geometry) (s : EngineState)
    (p : UpdateProps) (hw : g.width ≠ 0) (hh : g.height ≠ 0) :
    ((updateInternalPosition g s p).1).internalPositionPc =
      nextInternalPositionPc g p := by
  unfold updateInternalPosition
  rw [if_neg (by simp [hw, hh])]
  split_ifs with hskip
  · exact (hskip.2.1.1).symm
  · rfl

/-- `runPasses`: fold a sequence of positioning passes over the engine
state (each pass reads a fresh geometry snapshot and call properties). -/
def runPasses (s : EngineState) (L : List (Geometry × UpdateProps)) :
    EngineState :=
  L.foldl (fun st gp => (updateInternalPosition gp.1 st gp.2).1) s

lemma extent_pos (g : Geometry) (p : UpdateProps) (hw : 0 < g.width)
    (hh : 0 < g.height) : 0 < extent g p := by
  unfold extent
  cases p.portrait
  · exact hw
  · exact hh

lemma pass_range_of_pos (g : Geometry) (s : EngineState) (p : UpdateProps)
    (hw : 0 < g.width) (hh : 0 < g.height) :
    0 ≤ ((updateInternalPosition g s p).1).internalPositionPc ∧
      ((updateInternalPosition g s p).1).internalPositionPc ≤ 100 := by
  rw [updateInternalPosition_fst_pc g s p hw.ne' hh.ne']
  exact nextInternalPositionPc_mem g p (extent_pos g p hw hh)

lemma pass_preserves_range (g : Geometry) (s : EngineState) (p : UpdateProps)
    (hw : 0 ≤ g.width) (hh : 0 ≤ g.height)
    (hs : 0 ≤ s.internalPositionPc ∧ s.internalPositionPc ≤ 100) :
    0 ≤ ((updateInternalPosition g s p).1).internalPositionPc ∧
      ((updateInternalPosition g s p).1).internalPositionPc ≤ 100 := by
  rcases eq_or_lt_of_le hw with hw0 | hw0
  · unfold updateInternalPosition
    rw [if_pos (Or.inl hw0.symm)]
    exact hs
  rcases eq_or_lt_of_le hh with hh0 | hh0
  · unfold updateInternalPosition
    rw [if_pos (Or.inr hh0.symm)]
    exact hs
  · exact pass_range_of_pos g s p hw0 hh0

lemma runPasses_range (L : List (Geometry × UpdateProps)) (s : EngineState)
    (hs : 0 ≤ s.internalPositionPc ∧ s.internalPositionPc ≤ 100)
    (hL : ∀ gp ∈ L, 0 ≤ gp.1.width ∧ 0 ≤ gp.1.height) :
    0 ≤ (runPasses s L).internalPositionPc ∧
      (runPasses s L).internalPositionPc ≤ 100 := by
  induction L generalizing s with
  | nil => exact hs
  | cons gp tl ih =>
    have hgp := hL gp (List.mem_cons_self gp tl)
    exact ih _ (pass_preserves_range gp.1 s gp.2 hgp.1 hgp.2 hs)
      (fun x hx => hL x (List.mem_cons_of_mem gp hx))

/-- C2: with non-zero geometry the percentage produced by a positioning pass
lies in `[0, 100]`, no matter the raw input or the prior state, and it stays
in `[0, 100]` across any further sequence of passes with DOM-valid
(non-negative) geometry. -/
theorem positionPc_in_range (g : Geometry) (s : EngineState) (p : UpdateProps)
    (hw : 0 < g.width) (hh : 0 < g.height)
    (L : List (Geometry × UpdateProps))
    (hL : ∀ gp ∈ L, 0 ≤ gp.1.width ∧ 0 ≤ gp.1.height) :
    0 ≤ (runPasses ((updateInternalPosition g s p).1) L).internalPositionPc ∧
      (runPasses ((updateInternalPosition g s p).1) L).internalPositionPc ≤
        100 := by
  exact runPasses_range L _ (pass_range_of_pos g s p hw hh) hL

/-- C2 witness: from a state holding the out-of-range percentage `150`, a
pass with raw input `x = -40` on a `300 × 100` container yields a percentage
inside `[0, 100]`. -/
theorem positionPc_in_range_witness :
    0 ≤ (runPasses
        ((updateInternalPosition (⟨0, 0, 300, 100, 300, 100, 0, 0⟩ : Geometry)
          ⟨150, true⟩ ⟨-40, 0, false, false, 0⟩).1) []).internalPositionPc ∧
      (runPasses
        ((updateInternalPosition (⟨0, 0, 300, 100, 300, 100, 0, 0⟩ : Geometry)
          ⟨150, true⟩ ⟨-40, 0, false, false, 0⟩).1) []).internalPositionPc ≤
        100 := by
  exact positionPc_in_range _ _ _ (by norm_num) (by norm_num) []
    (by intro gp hgp; simp at hgp)

/-- C1: a positioning pass with non-zero geometry is a no-op (state
unchanged, no outputs, no notification) iff the SyncedFlag is already set,
the newly computed percentage equals the stored one, that value is `0` or
`100`, and the scale-corrected pixel sits exactly at `0` or at the
scale-corrected extent; in every other case the pass stores the new
percentage, sets the flag and emits outputs. -/
theorem suppression_characterization (g : Geometry) (s : EngineState)
    (p : UpdateProps) (hw : g.width ≠ 0) (hh : g.height ≠ 0) :
    (updateInternalPosition g s p = (s, none) ↔
      (s.didSyncBounds = true ∧
        nextInternalPositionPc g p = s.internalPositionPc ∧
        (s.internalPositionPc = 0 ∨ s.internalPositionPc = 100) ∧
        (adjustedPosition g p = 0 ∨
          adjustedPosition g p = adjustedExtent g p))) ∧
    (¬ (s.didSyncBounds = true ∧
        nextInternalPositionPc g p = s.internalPositionPc ∧
        (s.internalPositionPc = 0 ∨ s.internalPositionPc = 100) ∧
        (adjustedPosition g p = 0 ∨
          adjustedPosition g p = adjustedExtent g p)) →
      updateInternalPosition g s p =
        ({ internalPositionPc := nextInternalPositionPc g p,
            didSyncBounds := true },
          some ⟨clampedPx g p, clampedPx g p, nextInternalPositionPc g p⟩)) := by
  unfold updateInternalPosition
  rw [if_neg (by simp [hw, hh])]
  constructor
  · constructor
    · intro hEq
      split_ifs at hEq with hc
      · exact ⟨hc.1, hc.2.1.1, hc.2.1.2, hc.2.2⟩
      · simp at hEq
    · intro hc
      rw [if_pos ⟨hc.1, ⟨hc.2.1, hc.2.2.1⟩, hc.2.2.2⟩]
  · intro hnc
    rw [if_neg (fun hc => hnc ⟨hc.1, hc.2.1.1, hc.2.1.2, hc.2.2⟩)]

/-- C1 witness: with `NormalizedPosition = 100`, SyncedFlag set, and the
pointer held at `x = 500` past the right edge of a `300 × 100` container
(clamped pixel `300` = extent), the pass is suppressed: state unchanged and
no `onPositionChange`. -/
theorem suppression_characterization_witness :
    updateInternalPosition (⟨0, 0, 300, 100, 300, 100, 0, 0⟩ : Geometry)
      ⟨100, true⟩ ⟨500, 0, false, false, 0⟩ =
      ((⟨100, true⟩ : EngineState), none) := by
  exact (suppression_characterization _ _ _ (by norm_num) (by norm_num)).1.mpr
    (by
      refine ⟨rfl, ?_, Or.inr rfl, ?_⟩ <;>
        norm_num [nextInternalPositionPc, adjustedPosition, adjustedExtent,
          adjustedWidth, adjustedHeight, zoomScale, positionPx])

/-- Any emitted output record is the clamped pixel twice plus the new
percentage. -/
lemma outputs_eq (g : Geometry) (s : EngineState) (p : UpdateProps)
    (o : Outputs) (h : (updateInternalPosition g s p).2 = some o) :
    o = ⟨clampedPx g p, clampedPx g p, nextInternalPositionPc g p⟩ := by
  unfold updateInternalPosition at h
  split_ifs at h with h1 h2
  exact (Option.some.inj
    (show some (⟨clampedPx g p, clampedPx g p,
      nextInternalPositionPc g p⟩ : Outputs) = some o from h)).symm

/-- C3: whenever a pass emits outputs, the clip pixel and the handle offset
pixel coincide, both equal to the padded clamped pixel of that pass. -/
theorem clip_eq_offset (g : Geometry) (s : EngineState) (p : UpdateProps)
    (o : Outputs) (h : (updateInternalPosition g s p).2 = some o) :
    o.clipPx = o.offsetPx ∧ o.clipPx = clampedPx g p ∧
      o.offsetPx = clampedPx g p := by
  rw [outputs_eq g s p o h]
  exact ⟨rfl, rfl, rfl⟩

/-- C3 witness: for the Scenario A pass the emitted outputs are
`⟨75, 75, 25⟩` and their clip and offset pixels indeed agree with the pass'
clamped pixel. -/
theorem clip_eq_offset_witness :
    ((⟨75, 75, 25⟩ : Outputs).clipPx = (⟨75, 75, 25⟩ : Outputs).offsetPx ∧
      (⟨75, 75, 25⟩ : Outputs).clipPx =
        clampedPx (⟨0, 0, 300, 100, 300, 100, 0, 0⟩ : Geometry)
          ⟨75, 0, false, false, 0⟩ ∧
      (⟨75, 75, 25⟩ : Outputs).offsetPx =
        clampedPx (⟨0, 0, 300, 100, 300, 100, 0, 0⟩ : Geometry)
          ⟨75, 0, false, false, 0⟩) := by
  exact clip_eq_offset _ (initialState 50) _ _
    (by norm_num [updateInternalPosition, nextInternalPositionPc,
      adjustedPosition, adjustedExtent, adjustedWidth, adjustedHeight,
      zoomScale, positionPx, clampedPx, initialState])

/-- C4: with non-zero geometry and no visual scaling (layout sizes equal to
the bounding-rect sizes), a pass stores
`(clamped pixel / extent) * 100`; for horizontal container-relative input
this is `min (max x 0) width / width * 100`. -/
theorem noScale_formula (g : Geometry) (s : EngineState) (p : UpdateProps)
    (hw : 0 < g.width) (hh : 0 < g.height) (hzw : g.offsetWidth = g.width)
    (hzh : g.offsetHeight = g.height) :
    ((updateInternalPosition g s p).1).internalPositionPc =
      positionPx g p / extent g p * 100 ∧
    (p.portrait = false → p.isOffset = false →
      ((updateInternalPosition g s p).1).internalPositionPc =
        min (max p.x 0) g.width / g.width * 100) := by
  have hext : extent g p ≠ 0 := (extent_pos g p hw hh).ne'
  have hgen : ((updateInternalPosition g s p).1).internalPositionPc =
      positionPx g p / extent g p * 100 := by
    rw [updateInternalPosition_fst_pc g s p hw.ne' hh.ne']
    exact nextInternalPositionPc_eq g p (zoomScale_ne_zero g p hext)
  refine ⟨hgen, fun hp ho => ?_⟩
  rw [hgen]
  unfold positionPx extent
  rw [hp, ho]
  simp

/-- C4 witness (Scenario A): width `300`, no padding, container-relative
`x = 75` gives percentage `25` and outputs `clipPx = offsetPx = 75`. -/
theorem noScale_formula_witness :
    ((updateInternalPosition (⟨0, 0, 300, 100, 300, 100, 0, 0⟩ : Geometry)
        (initialState 50) ⟨75, 0, false, false, 0⟩).1).internalPositionPc =
      25 ∧
    (updateInternalPosition (⟨0, 0, 300, 100, 300, 100, 0, 0⟩ : Geometry)
        (initialState 50) ⟨75, 0, false, false, 0⟩).2 =
      some ⟨75, 75, 25⟩ := by
  constructor
  · rw [(noScale_formula _ (initialState 50) _ (by norm_num) (by norm_num)
      rfl rfl).2 rfl rfl]
    norm_num
  · norm_num [updateInternalPosition, nextInternalPositionPc,
      adjustedPosition, adjustedExtent, adjustedWidth, adjustedHeight,
      zoomScale, positionPx, clampedPx, initialState]

/-- C10: the percentage computed by a pass equals
`(clamped raw pixel / true extent) * 100` — the zoom scale divides pixel and
extent alike and cancels — so it does not depend on the layout-reported
`offsetWidth` / `offsetHeight`; only the pixel outputs do. -/
theorem scale_independence (g : Geometry) (p : UpdateProps)
    (hw : g.width ≠ 0) (hh : g.height ≠ 0) :
    nextInternalPositionPc g p = positionPx g p / extent g p * 100 ∧
    ∀ ow oh : ℚ,
      nextInternalPositionPc
          { g with offsetWidth := ow, offsetHeight := oh } p =
        nextInternalPositionPc g p := by
  have hext : extent g p ≠ 0 := by
    unfold extent
    cases p.portrait
    · exact hw
    · exact hh
  have h1 := nextInternalPositionPc_eq g p (zoomScale_ne_zero g p hext)
  refine ⟨h1, fun ow oh => ?_⟩
  have hext' : extent { g with offsetWidth := ow, offsetHeight := oh } p ≠ 0 :=
    hext
  rw [nextInternalPositionPc_eq _ p (zoomScale_ne_zero _ p hext'), h1]
  rfl

/-- C10 witness: a container rendered at true width `150` but layout width
`300` (zoom scale `1/2`) still maps `x = 75` to `75 / 150 * 100 = 50`%. -/
theorem scale_independence_witness :
    nextInternalPositionPc (⟨0, 0, 150, 100, 300, 100, 0, 0⟩ : Geometry)
      ⟨75, 0, false, false, 0⟩ = 50 := by
  have h := (scale_independence (⟨0, 0, 150, 100, 300, 100, 0, 0⟩ : Geometry)
    ⟨75, 0, false, false, 0⟩ (by norm_num) (by norm_num)).1
  rw [h]
  norm_num [positionPx, extent]

lemma clampedPx_mem (g : Geometry) (p : UpdateProps)
    (hb : p.boundsPadding ≤ adjustedExtent g p / 2) :
    p.boundsPadding ≤ clampedPx g p ∧
      clampedPx g p ≤ adjustedExtent g p - p.boundsPadding := by
  unfold clampedPx
  constructor
  · apply le_min
    · exact le_trans (by linarith) (le_max_right _ _)
    · linarith
  · exact min_le_right _ _

/-- C5: with `0 ≤ BoundsPadding ≤ extent / 2` (extent scale-corrected), the
clip and offset outputs of every non-suppressed pass lie in
`[padding, extent - padding]`. -/
theorem padding_invariant (g : Geometry) (s : EngineState) (p : UpdateProps)
    (o : Outputs) (hb0 : 0 ≤ p.boundsPadding)
    (hb : p.boundsPadding ≤ adjustedExtent g p / 2)
    (h : (updateInternalPosition g s p).2 = some o) :
    (p.boundsPadding ≤ o.clipPx ∧
      o.clipPx ≤ adjustedExtent g p - p.boundsPadding) ∧
    (p.boundsPadding ≤ o.offsetPx ∧
      o.offsetPx ≤ adjustedExtent g p - p.boundsPadding) := by
  rw [outputs_eq g s p o h]
  exact ⟨clampedPx_mem g p hb, clampedPx_mem g p hb⟩

/-- C5 witness (Scenario B): vertical container of height `200`, padding
`10`, target pixel `0`: both outputs are `10`, inside
`[10, 200 - 10]`. -/
theorem padding_invariant_witness :
    (((⟨0, 0, false, true, 10⟩ : UpdateProps).boundsPadding ≤
        (⟨10, 10, 0⟩ : Outputs).clipPx ∧
      (⟨10, 10, 0⟩ : Outputs).clipPx ≤
        adjustedExtent (⟨0, 0, 300, 200, 300, 200, 0, 0⟩ : Geometry)
            ⟨0, 0, false, true, 10⟩ -
          (⟨0, 0, false, true, 10⟩ : UpdateProps).boundsPadding) ∧
    ((⟨0, 0, false, true, 10⟩ : UpdateProps).boundsPadding ≤
        (⟨10, 10, 0⟩ : Outputs).offsetPx ∧
      (⟨10, 10, 0⟩ : Outputs).offsetPx ≤
        adjustedExtent (⟨0, 0, 300, 200, 300, 200, 0, 0⟩ : Geometry)
            ⟨0, 0, false, true, 10⟩ -
          (⟨0, 0, false, true, 10⟩ : UpdateProps).boundsPadding)) ∧
    (updateInternalPosition (⟨0, 0, 300, 200, 300, 200, 0, 0⟩ : Geometry)
        (initialState 50) ⟨0, 0, false, true, 10⟩).2 = some ⟨10, 10, 0⟩ := by
  constructor
  · exact padding_invariant _ (initialState 50) _ ⟨10, 10, 0⟩ (by norm_num)
      (by norm_num [adjustedExtent, adjustedHeight, zoomScale])
      (by norm_num [updateInternalPosition, nextInternalPositionPc,
        adjustedPosition, adjustedExtent, adjustedWidth, adjustedHeight,
        zoomScale, positionPx, clampedPx, initialState])
  · norm_num [updateInternalPosition, nextInternalPositionPc,
      adjustedPosition, adjustedExtent, adjustedWidth, adjustedHeight,
      zoomScale, positionPx, clampedPx, initialState]

/-- C6 counterexample: padding need not keep the output inside
`[0, extent]` without a precondition relating padding to extent: on a
container of width `100` with `BoundsPadding = 150 ≥ 0` and input `x = 50`,
the pass emits `clipPx = offsetPx = -50 < 0`. -/
theorem boundsPadding_escape :
    (updateInternalPosition (⟨0, 0, 100, 100, 100, 100, 0, 0⟩ : Geometry)
        (initialState 50) ⟨50, 0, false, false, 150⟩).2 =
      some ⟨-50, -50, 50⟩ ∧ ¬ ((0 : ℚ) ≤ (-50 : ℚ)) := by
  constructor
  · norm_num [updateInternalPosition, nextInternalPositionPc,
      adjustedPosition, adjustedExtent, adjustedWidth, adjustedHeight,
      zoomScale, positionPx, clampedPx, initialState]
  · norm_num

lemma clampedPx_bounded (g : Geometry) (p : UpdateProps)
    (hb0 : 0 ≤ p.boundsPadding) (hb : p.boundsPadding ≤ adjustedExtent g p) :
    0 ≤ clampedPx g p ∧ clampedPx g p ≤ adjustedExtent g p := by
  unfold clampedPx
  constructor
  · apply le_min
    · exact le_trans (by linarith) (le_max_right _ _)
    · linarith
  · exact le_trans (min_le_right _ _) (by linarith)

/-- C6 (amended): provided the padding does not exceed the scale-corrected
extent, the projected outputs stay within `[0, extent]`. -/
theorem boundsPadding_bounded (g : Geometry) (s : EngineState)
    (p : UpdateProps) (o : Outputs) (hb0 : 0 ≤ p.boundsPadding)
    (hb : p.boundsPadding ≤ adjustedExtent g p)
    (h : (updateInternalPosition g s p).2 = some o) :
    (0 ≤ o.clipPx ∧ o.clipPx ≤ adjustedExtent g p) ∧
    (0 ≤ o.offsetPx ∧ o.offsetPx ≤ adjustedExtent g p) := by
  rw [outputs_eq g s p o h]
  exact ⟨clampedPx_bounded g p hb0 hb, clampedPx_bounded g p hb0 hb⟩

/-- C6 (amended) witness: width `100`, padding `80 ≤ 100`, input `x = 95`:
the outputs (both `20`) lie within `[0, 100]`. -/
theorem boundsPadding_bounded_witness :
    ((0 ≤ (⟨20, 20, 95⟩ : Outputs).clipPx ∧
      (⟨20, 20, 95⟩ : Outputs).clipPx ≤
        adjustedExtent (⟨0, 0, 100, 100, 100, 100, 0, 0⟩ : Geometry)
          ⟨95, 0, false, false, 80⟩) ∧
    (0 ≤ (⟨20, 20, 95⟩ : Outputs).offsetPx ∧
      (⟨20, 20, 95⟩ : Outputs).offsetPx ≤
        adjustedExtent (⟨0, 0, 100, 100, 100, 100, 0, 0⟩ : Geometry)
          ⟨95, 0, false, false, 80⟩)) ∧
    (updateInternalPosition (⟨0, 0, 100, 100, 100, 100, 0, 0⟩ : Geometry)
        (initialState 50) ⟨95, 0, false, false, 80⟩).2 =
      some ⟨20, 20, 95⟩ := by
  constructor
  · exact boundsPadding_bounded _ (initialState 50) _ ⟨20, 20, 95⟩
      (by norm_num)
      (by norm_num [adjustedExtent, adjustedWidth, zoomScale])
      (by norm_num [updateInternalPosition, nextInternalPositionPc,
        adjustedPosition, adjustedExtent, adjustedWidth, adjustedHeight,
        zoomScale, positionPx, clampedPx, initialState])
  · norm_num [updateInternalPosition, nextInternalPositionPc,
      adjustedPosition, adjustedExtent, adjustedWidth, adjustedHeight,
      zoomScale, positionPx, clampedPx, initialState]

/-- C7: a resize pass recomputes the coordinate on the active axis as
`(new extent / 100) * previous percentage` (in bounding-rect space), and
when the stored percentage is within `[0, 100]` the pass reproduces exactly
that percentage under the new geometry. -/
theorem resize_preserves_pc (g : Geometry) (s : EngineState)
    (portrait : Bool) (bp width height : ℚ) (hw : 0 < g.width)
    (hh : 0 < g.height) (hW : width ≠ 0) (hH : height ≠ 0)
    (hs0 : 0 ≤ s.internalPositionPc) (hs1 : s.internalPositionPc ≤ 100) :
    ((handleResize g s portrait bp width height).1).internalPositionPc =
      s.internalPositionPc ∧
    ((width / 100) * s.internalPositionPc * g.width) / width =
      (g.width / 100) * s.internalPositionPc ∧
    ((height / 100) * s.internalPositionPc * g.height) / height =
      (g.height / 100) * s.internalPositionPc := by
  refine ⟨?_, by field_simp; ring, by field_simp; ring⟩
  unfold handleResize
  rw [updateInternalPosition_fst_pc _ _ _ hw.ne' hh.ne']
  have hext := extent_pos g
    (⟨((width / 100) * s.internalPositionPc * g.width) / width,
      ((height / 100) * s.internalPositionPc * g.height) / height,
      false, portrait, bp⟩ : UpdateProps) hw hh
  rw [nextInternalPositionPc_eq _ _ (zoomScale_ne_zero _ _ hext.ne')]
  unfold positionPx extent at *
  cases portrait
  · have hx : ((width / 100) * s.internalPositionPc * g.width) / width =
        s.internalPositionPc * g.width / 100 := by
      field_simp
      ring
    simp only [Bool.false_eq_true, if_false] at hext ⊢
    rw [hx]
    have h0 : 0 ≤ s.internalPositionPc * g.width / 100 :=
      div_nonneg (mul_nonneg hs0 hw.le) (by norm_num)
    have h1 : s.internalPositionPc * g.width / 100 ≤ g.width := by
      rw [div_le_iff (by norm_num : (0 : ℚ) < 100)]
      nlinarith
    rw [max_eq_left h0, min_eq_left h1]
    field_simp
    ring
  · have hy : ((height / 100) * s.internalPositionPc * g.height) / height =
        s.internalPositionPc * g.height / 100 := by
      field_simp
      ring
    simp only [Bool.false_eq_true, if_false, if_true] at hext ⊢
    rw [hy]
    have h0 : 0 ≤ s.internalPositionPc * g.height / 100 :=
      div_nonneg (mul_nonneg hs0 hh.le) (by norm_num)
    have h1 : s.internalPositionPc * g.height / 100 ≤ g.height := by
      rw [div_le_iff (by norm_num : (0 : ℚ) < 100)]
      nlinarith
    rw [max_eq_left h0, min_eq_left h1]
    field_simp
    ring

/-- C7 witness (resize stability): percentage `50` on a `200 × 100`
container; after a resize to `400 × 100` the resynchronizing pass yields
`50` again, not the raw-pixel-preserving `25`. -/
theorem resize_preserves_pc_witness :
    ((handleResize (⟨0, 0, 400, 100, 400, 100, 0, 0⟩ : Geometry)
        (⟨50, true⟩ : EngineState) false 0 400 100).1).internalPositionPc =
      50 ∧ ¬ ((50 : ℚ) = 25) := by
  constructor
  · exact (resize_preserves_pc (⟨0, 0, 400, 100, 400, 100, 0, 0⟩ : Geometry)
      (⟨50, true⟩ : EngineState) false 0 400 100 (by norm_num) (by norm_num)
      (by norm_num) (by norm_num) (by norm_num) (by norm_num)).1
  · norm_num

/-- C8: with zero measured width or height a pass returns before any
computation — state untouched, no outputs, no notification — and a later
pass (any geometry, any input) behaves exactly as if the skipped pass had
never happened. -/
theorem zero_geometry_skip (g : Geometry) (s : EngineState) (p : UpdateProps)
    (h : g.width = 0 ∨ g.height = 0) :
    updateInternalPosition g s p = (s, none) ∧
    ∀ (g' : Geometry) (p' : UpdateProps),
      updateInternalPosition g' ((updateInternalPosition g s p).1) p' =
        updateInternalPosition g' s p' := by
  have h1 : updateInternalPosition g s p = (s, none) := by
    unfold updateInternalPosition
    rw [if_pos h]
  exact ⟨h1, fun g' p' => by rw [h1]⟩

/-- C8 witness: a pass on a `0 × 100` container is a recoverable no-op. -/
theorem zero_geometry_skip_witness :
    updateInternalPosition (⟨0, 0, 0, 100, 0, 100, 0, 0⟩ : Geometry)
      (initialState 50) ⟨10, 10, false, false, 0⟩ = (initialState 50, none) :=
  (zero_geometry_skip _ _ _ (Or.inl rfl)).1

/-- Pointer/touch events driving the `isDragging` state
(`handlePointerDown` sets it `true`, `handlePointerUp` sets it `false`). -/
inductive DragEvent
  | down
  | up
deriving DecidableEq, Repr

/-- State of the window-binding effect (source lines 262–281): the
`isDragging` state, the `hasWindowBinding` ref, and cumulative counts of
window move/up listener-set attach and detach operations. -/
structure BindingState where
  isDragging : Bool
  hasWindowBinding : Bool
  attaches : Nat
  detaches : Nat
deriving DecidableEq, Repr

/-- Effect cleanup (source lines 272–280): remove the window listeners and
clear the ref when `hasWindowBinding` is set. -/
def effectCleanup (b : BindingState) : BindingState :=
  if b.hasWindowBinding then
    { b with hasWindowBinding := false, detaches := b.detaches + 1 }
  else b

/-- Effect body (source lines 264–270): add the window listeners and set
the ref when dragging and not already bound. -/
def effectBody (b : BindingState) : BindingState :=
  if b.isDragging = true ∧ b.hasWindowBinding = false then
    { b with hasWindowBinding := true, attaches := b.attaches + 1 }
  else b

/-- Apply a pointer down/up event: set `isDragging` and, when its value
changed, re-run the effect (cleanup of the previous run, then the body).
An event that leaves `isDragging` unchanged causes no re-render and hence
no effect run. -/
def applyDragEvent (b : BindingState) (e : DragEvent) : BindingState :=
  let target := match e with
    | .down => true
    | .up => false
  if b.isDragging = target then b
  else effectBody (effectCleanup { b with isDragging := target })

/-- Run a sequence of drag events from the mount state (idle, unbound). -/
def runDragEvents (L : List DragEvent) : BindingState :=
  L.foldl applyDragEvent ⟨false, false, 0, 0⟩

lemma applyDragEvent_inv (b : BindingState) (e : DragEvent)
    (h1 : b.hasWindowBinding = b.isDragging)
    (h2 : b.attaches = b.detaches + (if b.isDragging then 1 else 0)) :
    (applyDragEvent b e).hasWindowBinding = (applyDragEvent b e).isDragging ∧
      (applyDragEvent b e).attaches =
        (applyDragEvent b e).detaches +
          (if (applyDragEvent b e).isDragging then 1 else 0) := by
  cases e <;> cases hd : b.isDragging <;>
    simp_all [applyDragEvent, effectCleanup, effectBody]

lemma foldl_applyDragEvent_inv (L : List DragEvent) (b : BindingState)
    (h1 : b.hasWindowBinding = b.isDragging)
    (h2 : b.attaches = b.detaches + (if b.isDragging then 1 else 0)) :
    (L.foldl applyDragEvent b).hasWindowBinding =
        (L.foldl applyDragEvent b).isDragging ∧
      (L.foldl applyDragEvent b).attaches =
        (L.foldl applyDragEvent b).detaches +
          (if (L.foldl applyDragEvent b).isDragging then 1 else 0) := by
  induction L generalizing b with
  | nil => exact ⟨h1, h2⟩
  | cons e tl ih =>
    have h := applyDragEvent_inv b e h1 h2
    exact ih (applyDragEvent b e) h.1 h.2

lemma runDragEvents_inv (L : List DragEvent) :
    (runDragEvents L).hasWindowBinding = (runDragEvents L).isDragging ∧
      (runDragEvents L).attaches =
        (runDragEvents L).detaches +
          (if (runDragEvents L).isDragging then 1 else 0) :=
  foldl_applyDragEvent_inv L ⟨false, false, 0, 0⟩ rfl rfl

lemma runDragEvents_append (L : List DragEvent) (e : DragEvent) :
    runDragEvents (L ++ [e]) = applyDragEvent (runDragEvents L) e := by
  unfold runDragEvents
  rw [List.foldl_append]
  rfl

/-- C9: after any sequence of down/up events from mount, the window
listeners are bound iff the engine is dragging, and the cumulative attach
count exceeds the cumulative detach count by exactly one while dragging and
by zero when idle (no dangling listener, no double attach). Moreover, a
`down` while idle attaches exactly one listener set and detaches none, an
`up` while dragging detaches exactly one and attaches none, and redundant
events attach and detach nothing. -/
theorem window_binding_lifecycle (L : List DragEvent) :
    ((runDragEvents L).hasWindowBinding = (runDragEvents L).isDragging ∧
      (runDragEvents L).attaches =
        (runDragEvents L).detaches +
          (if (runDragEvents L).isDragging then 1 else 0)) ∧
    (runDragEvents (L ++ [DragEvent.down])).attaches =
      (runDragEvents L).attaches +
        (if (runDragEvents L).isDragging then 0 else 1) ∧
    (runDragEvents (L ++ [DragEvent.down])).detaches =
      (runDragEvents L).detaches ∧
    (runDragEvents (L ++ [DragEvent.up])).detaches =
      (runDragEvents L).detaches +
        (if (runDragEvents L).isDragging then 1 else 0) ∧
    (runDragEvents (L ++ [DragEvent.up])).attaches =
      (runDragEvents L).attaches := by
  obtain ⟨h1, h2⟩ := runDragEvents_inv L
  refine ⟨⟨h1, h2⟩, ?_, ?_, ?_, ?_⟩ <;>
    rw [runDragEvents_append] <;>
    cases hd : (runDragEvents L).isDragging <;>
    simp_all [applyDragEvent, effectCleanup, effectBody]

end ReactCompareSlider
